import Mathlib

set_option maxRecDepth 8000

/-!
Verification of the version-bump and changelog-generation engine of the
release-action repository.

The core sources (src/library/bumpVersion.ts, src/library/changelogGenerator.ts,
src/library/config.ts) are not part of the provided sources; only their test
suites (src/test/bumpVersion.test.ts, src/test/changelogGenerator.test.ts), the
CLI caller and one preset are.  The definitions below are therefore modelled
from the specification (spec.md sections 3, 4.1, 4.2), with every behavioural
ambiguity resolved so that the model reproduces the exact inline snapshots of
the test suite; several theorems named modelCheck_* below replay those
snapshots verbatim as evidence of faithfulness.
-/

/-- Modelled from the spec: the severity of one classified change
(major > minor > patch > none). -/
inductive Severity where
  | none
  | patch
  | minor
  | major
  deriving DecidableEq

/-- Modelled from the spec: one commit record as returned by the commit
history fetcher, a message (possibly multi-line) plus an identifier
(possibly empty). -/
structure Commit where
  message : String
  sha : String
  deriving DecidableEq

/-- Modelled from the spec: one release tag, a name such as v0.0.9 plus the
commit identifier it points to. -/
structure Tag where
  name : String
  commitSha : String
  deriving DecidableEq

/-- Repository coordinates, used to build commit links. -/
structure Repo where
  owner : String
  repoName : String
  deriving DecidableEq

/-- A parsed semantic version X.Y.Z. -/
structure Version where
  major : Nat
  minor : Nat
  patch : Nat
  deriving DecidableEq

/-- Modelled from the spec: buckets of rendered change descriptions keyed by
severity, plus the special rawOverride bucket used by the initial-release
path (a bucket that is absent in the TypeScript object is the empty list /
Option.none here). -/
structure CommitsByRule where
  rawOverride : Option String
  major : List String
  minor : List String
  patch : List String
  deriving DecidableEq

/-- Modelled from the spec: the result record produced by
getNextVersionAndReleaseNotes. -/
structure ClassificationResult where
  bumpType : Severity
  nextVersion : Option Version
  commitsByRule : CommitsByRule
  usingInExistingEnv : Bool
  latestTagCommitSha : Option String
  deriving DecidableEq

/-- Split a character list at every occurrence of the separator. -/
def splitOnCh (sep : Char) : List Char → List (List Char)
  | [] => [[]]
  | c :: cs =>
    match splitOnCh sep cs with
    | [] => [[]]
    | l :: ls => if c = sep then [] :: l :: ls else (c :: l) :: ls

/-- Drop a literal character sequence from the front of a list, or fail. -/
def dropLit : List Char → List Char → Option (List Char)
  | [], l => some l
  | _ :: _, [] => Option.none
  | p :: ps, c :: cs => if c = p then dropLit ps cs else Option.none

/-- Try to read one inline issue reference (closes #N / fixes #N, with an
optional preceding space that is absorbed) at the head of the list; returns
the digit run and the remainder. -/
def refMatchWith (kw l : List Char) : Option (List Char × List Char) :=
  match dropLit kw l with
  | some r =>
    let ds := r.takeWhile Char.isDigit
    if ds.isEmpty then Option.none else some (ds, r.drop ds.length)
  | Option.none => Option.none

/-- Modelled from the spec: the inline issue-reference patterns recognized in
description text. -/
def refMatch (l : List Char) : Option (List Char × List Char) :=
  match refMatchWith (" closes #".data) l with
  | some r => some r
  | Option.none =>
    match refMatchWith (" fixes #".data) l with
    | some r => some r
    | Option.none =>
      match refMatchWith ("closes #".data) l with
      | some r => some r
      | Option.none => refMatchWith ("fixes #".data) l

/-- One left-to-right scan removing inline issue references and collecting the
referenced issue numbers; the fuel argument (instantiated with the length of
the list) makes the recursion structural. -/
def scanRefs : Nat → List Char → List Char × List String
  | 0, l => (l, [])
  | _ + 1, [] => ([], [])
  | fuel + 1, c :: cs =>
    match refMatch (c :: cs) with
    | some (ds, rest) =>
      let r := scanRefs fuel rest
      (r.1, String.mk ds :: r.2)
    | Option.none =>
      let r := scanRefs fuel cs
      (c :: r.1, r.2)

/-- Parse the reversed tail of a line as a parenthesized issue list such as
(#12, #34); the input starts right after the closing parenthesis (in reversed
order) and the collected references come out in original order. -/
def groupsAux : Nat → List Char → Option (List String × List Char)
  | 0, _ => Option.none
  | fuel + 1, l =>
    let ds := l.takeWhile Char.isDigit
    if ds.isEmpty then Option.none
    else
      match l.drop ds.length with
      | '#' :: '(' :: r2 => some ([String.mk ds.reverse], r2)
      | '#' :: ' ' :: ',' :: r2 =>
        match groupsAux fuel r2 with
        | some (refs, r3) => some (refs ++ [String.mk ds.reverse], r3)
        | Option.none => Option.none
      | _ => Option.none

/-- Modelled from the spec: a trailing parenthesized issue list such as (#123)
is removed from the visible text (together with the separating space) and its
issue numbers are collected. -/
def stripParen (l : List Char) : List Char × List String :=
  match l.reverse with
  | ')' :: lr =>
    match groupsAux lr.length lr with
    | some (refs, restRev) => ((restRev.dropWhile (fun c => c = ' ')).reverse, refs)
    | Option.none => (l, [])
  | _ => (l, [])

/-- Clean one line of description text: remove inline and trailing issue
references, returning the visible text and the referenced issues in order. -/
def processText (l : List Char) : String × List String :=
  let r1 := scanRefs l.length l
  let r2 := stripParen r1.1
  (String.mk r2.1, r1.2 ++ r2.2)

/-- Modelled from the spec: the fixed lookup table from conventional-commit
type words to severities (feat maps to minor, fix maps to patch; anything
else is not a severity type). -/
def typeSeverity (t : List Char) : Option Severity :=
  if t = "feat".data then some Severity.minor
  else if t = "fix".data then some Severity.patch
  else Option.none

/-- Try to read a type(scope)?: description pattern starting exactly at the
head of the list. -/
def typeAt (l : List Char) : Option (List Char × Option String × List Char) :=
  let ty := l.takeWhile Char.isLower
  if ty.isEmpty then Option.none
  else
    match l.drop ty.length with
    | '(' :: r =>
      let sc := r.takeWhile (fun c => c != ')')
      if sc.isEmpty then Option.none
      else
        match r.drop sc.length with
        | ')' :: ':' :: ' ' :: body => some (ty, some (String.mk sc), body)
        | _ => Option.none
    | ':' :: ' ' :: body => some (ty, Option.none, body)
    | _ => Option.none

/-- Find the first type(scope)?: description match anywhere in the line (the
search is unanchored, which is also what strips leading bracketed tags like
[publish] and leading free text such as WIP before a recognized prefix). -/
def findTypeMatch : List Char → Option (List Char × Option String × List Char)
  | [] => Option.none
  | c :: cs =>
    match typeAt (c :: cs) with
    | some r => some r
    | Option.none => findTypeMatch cs

/-- Modelled from the spec: the tagged-line classifier consumed by the
line-by-line state machine.  A line is blank, a BREAKING marker (keyword
BREAKING, optionally followed by a colon and text), an entry start with a
recognized severity type, the start of a non-severity block (a typed line
whose type is not a severity type, such as test: or Note:), or plain
continuation text. -/
inductive LineKind where
  | blank
  | breaking (body : List Char)
  | start (sev : Severity) (scope : Option String) (body : List Char)
  | dead
  | plain (body : List Char)
  deriving DecidableEq

/-- Classify one line of a commit message. -/
def lineKind (l : List Char) : LineKind :=
  if l.isEmpty then LineKind.blank
  else if ("BREAKING".data).isPrefixOf l then
    LineKind.breaking ((l.drop 8).dropWhile (fun c => c = ':' || c = ' '))
  else
    match findTypeMatch l with
    | some (ty, sc, body) =>
      match typeSeverity ty with
      | some sev => LineKind.start sev sc body
      | Option.none => LineKind.dead
    | Option.none => LineKind.plain l

/-- Modelled from the spec: one logical change extracted from a commit
message. -/
structure Entry where
  sev : Severity
  scope : Option String
  lines : List String
  issues : List String
  sha : String
  deriving DecidableEq

/-- The state of the line-by-line parser: completed entries plus the current
open entry, if any. -/
structure PState where
  done : List Entry
  cur : Option Entry
  deriving DecidableEq

/-- Close the open entry, if any. -/
def flushed (st : PState) : List Entry :=
  match st.cur with
  | some e => st.done ++ [e]
  | Option.none => st.done

/-- Modelled from the spec: one transition of the line-by-line parsing state
machine.  An entry-start line opens a new entry (closing the previous one); a
BREAKING marker escalates the open entry to major and appends its trailing
text; a typed line with an unrecognized type closes the open entry and starts
a discarded non-severity block; plain text is appended to the open entry (or
discarded when none is open); blank lines are skipped. -/
def step (sha : String) (st : PState) (l : List Char) : PState :=
  match lineKind l with
  | LineKind.blank => st
  | LineKind.breaking body =>
    match st.cur with
    | some e =>
      if body.isEmpty then { st with cur := some { e with sev := Severity.major } }
      else
        let p := processText body
        { st with cur := some { e with
            sev := Severity.major
            lines := e.lines ++ [p.1]
            issues := e.issues ++ p.2 } }
    | Option.none => st
  | LineKind.start sev sc body =>
    let p := processText body
    { done := flushed st
      cur := some { sev := sev, scope := sc, lines := [p.1], issues := p.2, sha := sha } }
  | LineKind.dead => { done := flushed st, cur := Option.none }
  | LineKind.plain body =>
    match st.cur with
    | some e =>
      let p := processText body
      { st with cur := some { e with lines := e.lines ++ [p.1], issues := e.issues ++ p.2 } }
    | Option.none => st

/-- Parse one commit message into its list of entries. -/
def parseCommit (c : Commit) : List Entry :=
  flushed ((splitOnCh '\n' c.message.data).foldl (step c.sha) { done := [], cur := Option.none })

/-- All entries of a commit list, in commit order and entry-extraction
order. -/
def entriesOf : List Commit → List Entry
  | [] => []
  | c :: cs => parseCommit c ++ entriesOf cs

/-- Join strings with a newline between them. -/
def joinNl : List String → String
  | [] => ""
  | [x] => x
  | x :: y :: xs => x ++ "\n" ++ joinNl (y :: xs)

/-- Join strings with a comma-space between them. -/
def joinComma : List String → String
  | [] => ""
  | [x] => x
  | x :: y :: xs => x ++ ", " ++ joinComma (y :: xs)

/-- Keep the first occurrence of every element, dropping later duplicates. -/
def dedupAux : List String → List String → List String
  | _, [] => []
  | seen, x :: xs =>
    if x ∈ seen then dedupAux seen xs else x :: dedupAux (x :: seen) xs

/-- Deduplicate a list of issue references, keeping first occurrences in
order. -/
def dedupFirst (l : List String) : List String :=
  dedupAux [] l

/-- Modelled from the spec: render one entry.  The scope, if present, becomes
a bold prefix; the description lines are joined preserving line breaks; the
deduplicated issue references are appended as one trailing annotation, and an
entry of a commit with a non-empty identifier that has no issue references
instead gets a markdown commit-link suffix built from the repository URL. -/
def renderEntry (repo : Repo) (e : Entry) : String :=
  let base :=
    (match e.scope with
     | some s => "**" ++ s ++ "**: "
     | Option.none => "") ++ joinNl e.lines
  let refs := dedupFirst e.issues
  if refs.isEmpty then
    if e.sha = "" then base
    else
      base ++ " [`" ++ String.mk (e.sha.data.take 7) ++ "`](https://github.com/" ++
        repo.owner ++ "/" ++ repo.repoName ++ "/commit/" ++ e.sha ++ ")"
  else
    base ++ " (" ++ joinComma (refs.map (fun r => "#" ++ r)) ++ ")"

/-- Group the rendered entries into severity buckets, in classification
order. -/
def bucketsOf (repo : Repo) (es : List Entry) : CommitsByRule :=
  { rawOverride := Option.none
    major := (es.filter (fun e => decide (e.sev = Severity.major))).map (renderEntry repo)
    minor := (es.filter (fun e => decide (e.sev = Severity.minor))).map (renderEntry repo)
    patch := (es.filter (fun e => decide (e.sev = Severity.patch))).map (renderEntry repo) }

/-- Numeric rank of a severity. -/
def sevRank : Severity → Nat
  | Severity.none => 0
  | Severity.patch => 1
  | Severity.minor => 2
  | Severity.major => 3

/-- The larger of two severities. -/
def sevMax (a b : Severity) : Severity :=
  if sevRank a < sevRank b then b else a

/-- The maximum severity over a list of entries (none when empty). -/
def maxSev : List Entry → Severity
  | [] => Severity.none
  | e :: es => sevMax e.sev (maxSev es)

/-- Modelled from the spec: on an unstable current version (major = 0) the
externally visible bump is downgraded one level, so a breaking change only
bumps minor and a feature only bumps patch (the buckets are not changed). -/
def downgradeUnstable : Severity → Severity
  | Severity.major => Severity.minor
  | Severity.minor => Severity.patch
  | s => s

/-- The externally visible bump type given the stability flag. -/
def finalBump (stable : Bool) (raw : Severity) : Severity :=
  if stable then raw else downgradeUnstable raw

/-- Modelled from the spec: standard semantic-version increment; none never
advances the version. -/
def bumped (v : Version) : Severity → Option Version
  | Severity.major => some { major := v.major + 1, minor := 0, patch := 0 }
  | Severity.minor => some { major := v.major, minor := v.minor + 1, patch := 0 }
  | Severity.patch => some { major := v.major, minor := v.minor, patch := v.patch + 1 }
  | Severity.none => Option.none

/-- Modelled from the spec: classify the already-cut-off commit list and
compute the bump and next version from the current version and its
stability. -/
def resultFor (repo : Repo) (current : Version) (relevant : List Commit)
    (useEx : Bool) (ts : Option String) : ClassificationResult :=
  let es := entriesOf relevant
  let bump := finalBump (decide (1 ≤ current.major)) (maxSev es)
  { bumpType := bump
    nextVersion := bumped current bump
    commitsByRule := bucketsOf repo es
    usingInExistingEnv := useEx
    latestTagCommitSha := ts }

/-- Modelled from the spec: inclusive-exclusion cutoff; keep commits strictly
newer than the first commit whose identifier matches the latest tag's commit
identifier. -/
def takeUntilSha (sha : String) : List Commit → List Commit
  | [] => []
  | c :: cs => if c.sha = sha then [] else c :: takeUntilSha sha cs

/-- Modelled from the spec: paginated fetching, page size 100, starting at
page p; fetching stops once a page contains the cutoff commit or returns
fewer than 100 items, and every fetched commit is kept.  The boolean records
whether the cutoff commit was found; the fuel argument bounds the number of
pages and makes the loop structural. -/
def paginateFrom (pages : Nat → List Commit) (sha : String) : Nat → Nat → List Commit × Bool
  | 0, _ => ([], false)
  | fuel + 1, p =>
    let data := pages p
    if data.any (fun c => decide (c.sha = sha)) then (data, true)
    else if data.length < 100 then (data, false)
    else
      let r := paginateFrom pages sha fuel (p + 1)
      (data ++ r.1, r.2)

/-- Numeric value of a digit run. -/
def digitsVal (l : List Char) : Nat :=
  l.foldl (fun a c => a * 10 + (c.toNat - 48)) 0

/-- Parse a non-empty all-digit run. -/
def parseNatDigits (l : List Char) : Option Nat :=
  if l.isEmpty then Option.none
  else if l.all Char.isDigit then some (digitsVal l) else Option.none

/-- Parse a semantic version string X.Y.Z; malformed versions fail. -/
def parseVersion (s : String) : Option Version :=
  match splitOnCh '.' s.data with
  | [a, b, c] =>
    match parseNatDigits a, parseNatDigits b, parseNatDigits c with
    | some x, some y, some z => some { major := x, minor := y, patch := z }
    | _, _, _ => Option.none
  | _ => Option.none

/-- Modelled from the spec: the top level of the classifier
(getNextVersionAndReleaseNotes of src/library/bumpVersion.ts, which is not
among the provided sources).  With no prior release tag the initial-release
path fires: classification is bypassed, bumpType is none, commitsByRule is
the rawOverride marker and nextVersion is the patch-incremented package
version.  Otherwise commits are fetched page by page until the cutoff commit
is seen, the cutoff is applied, and the commits are classified against the
version taken from the latest tag name. -/
def getNextVersionAndReleaseNotes (repo : Repo) (tags : List Tag)
    (pages : Nat → List Commit) (packageVersion : String) (fuel : Nat) :
    Option ClassificationResult :=
  match tags.find? (fun t => ("v".data).isPrefixOf t.name.data) with
  | Option.none =>
    (parseVersion packageVersion).map fun pv =>
      { bumpType := Severity.none
        nextVersion := bumped pv Severity.patch
        commitsByRule :=
          { rawOverride := some "🎉 Initial release", major := [], minor := [], patch := [] }
        usingInExistingEnv := false
        latestTagCommitSha := Option.none }
  | some tag =>
    (parseVersion (String.mk (tag.name.data.drop 1))).map fun current =>
      let r := paginateFrom pages tag.commitSha fuel 1
      resultFor repo current (takeUntilSha tag.commitSha r.1) (!r.2) (some tag.commitSha)

/-- Render one changelog section: a heading, a blank line, then one markdown
list item per entry (continuation lines of an entry keep their line breaks
and get no list marker). -/
def renderSection (heading : String) (items : List String) : String :=
  heading ++ "\n\n" ++ joinNl (items.map (fun i => "- " ++ i))

/-- Modelled from the spec: the changelog renderer
(generateChangelog of src/library/changelogGenerator.ts, which is not among
the provided sources).  A rawOverride bucket is emitted verbatim as the whole
changelog; otherwise the non-empty buckets are rendered as sections, breaking
changes first, then features, then fixes, with no heading for an absent
bucket. -/
def generateChangelog (cbr : CommitsByRule) : String :=
  match cbr.rawOverride with
  | some s => s
  | Option.none =>
    joinNl
      ((if cbr.major.isEmpty then [] else [renderSection "## BREAKING CHANGES" cbr.major]) ++
       (if cbr.minor.isEmpty then [] else [renderSection "### New Features" cbr.minor]) ++
       (if cbr.patch.isEmpty then [] else [renderSection "### Bug Fixes" cbr.patch]))

/-- The fixed, ordered association of section headings to buckets used to
state the rendering-order claim. -/
def orderedSections (cbr : CommitsByRule) : List (String × List String) :=
  [("## BREAKING CHANGES", cbr.major),
   ("### New Features", cbr.minor),
   ("### Bug Fixes", cbr.patch)]

/-- The claim-side description of the renderer: filter the absent buckets out
of the fixed ordered section list, render each survivor, join. -/
def changelogByOrder (cbr : CommitsByRule) : String :=
  joinNl (((orderedSections cbr).filter (fun p => !p.2.isEmpty)).map
    (fun p => renderSection p.1 p.2))

/-- Bool test for an entry-start line kind. -/
def isStartKind : LineKind → Bool
  | LineKind.start _ _ _ => true
  | _ => false

/-- Bool test for a BREAKING-marker line kind. -/
def isBreakingKind : LineKind → Bool
  | LineKind.breaking _ => true
  | _ => false

/-- The repository coordinates used by the test suite. -/
def repoUR : Repo :=
  { owner := "user", repoName := "repository" }

/-- The commit list of the test named BREAKING gives major on unstable. -/
def c1Commits : List Commit :=
  [{ message := "fix: fix serious issue\nfeat: add new feature\nBREAKING config was removed", sha := "" },
   { message := "feat: just adding feature\nBREAKING we broke anything", sha := "" },
   { message := "fix: first fixes", sha := "" }]

/-- The pre-cutoff commits of the test named Doesn't pick commits below
version. -/
def c3Pre : List Commit :=
  [{ message := "fix: fix serious issue\nfeat: add new feature", sha := "" },
   { message := "feat: just adding feature", sha := "" },
   { message := "fix: first fixes", sha := "" }]

/-- The cutoff commit of that test, carrying the latest tag's sha. -/
def c3Cut : Commit :=
  { message := "feat: should not be here", sha := "123" }

/-- The post-cutoff commits of that test. -/
def c3Post : List Commit :=
  [{ message := "feat: should not be here", sha := "3213" },
   { message := "feat: something else", sha := "" }]

/-- The commit list of the test named No version bump plus the cutoff
commit. -/
def c5Commits : List Commit :=
  [{ message := "fix serious issue\nfeature something new", sha := "" },
   { message := "feat: should not be here", sha := "123" }]

/-- The commit list of the test named Operates on description properly. -/
def c7Commits : List Commit :=
  [{ message := "\nfix: This rare bug was finally fixed closes #33343\n\nSome background for bug goes here...\nfeat: Add new feature within commit\nDescription", sha := "" },
   { message := "\nfix: This rare bug was finally fixed fixes #33343\n\nfixes #453\nSome background for bug goes here...\ntest: Fix tests\nTests were hard to fix", sha := "" },
   { message := "fix: first fixes", sha := "" }]

/-- A two-page commit history: one full page of 100 fix commits, then 100
feat commits followed by the cutoff commit, as in the test named Pick all
commits even if they are > 100. -/
def c8Pages : Nat → List Commit := fun p =>
  if p = 1 then List.replicate 100 { message := "fix: a", sha := "" }
  else if p = 2 then
    List.replicate 100 { message := "feat: b", sha := "" } ++
      [{ message := "feat: not included", sha := "123" }]
  else []

/-- The commit list of the changelog-generator test. -/
def c9Commits : List Commit :=
  [{ message := "fix: fix serious issue\nfeat: add new feature\nBREAKING config was removed", sha := "" },
   { message := "feat(button): just adding feature\nBREAKING we broke anything", sha := "" },
   { message := "[smth] fix(library-action): first fixes", sha := "" },
   { message := "feat: new feature!", sha := "" }]

/-- An open single-line patch entry used to witness the continuation
claim. -/
def c6OpenEntry : Entry :=
  { sev := Severity.patch, scope := Option.none, lines := ["a"], issues := [], sha := "" }

/-- The entry parsed from a commit that references issue 7 on two lines. -/
def c7DedupEntry : Entry :=
  { sev := Severity.patch
    scope := Option.none
    lines := ["Fixed bug", "Again"]
    issues := ["7", "7"]
    sha := "" }

/-- Sample buckets used to witness the rendering-order claim. -/
def c9SampleCbr : CommitsByRule :=
  { rawOverride := Option.none, major := ["X"], minor := [], patch := ["Y"] }

/-! ## Helper lemmas -/

theorem sevMax_major_left (b : Severity) : sevMax Severity.major b = Severity.major := by
  cases b <;> rfl

theorem sevMax_major_right (a : Severity) : sevMax a Severity.major = Severity.major := by
  cases a <;> rfl

theorem maxSev_major (es : List Entry) (h : ∃ e ∈ es, e.sev = Severity.major) :
    maxSev es = Severity.major := by
  induction es with
  | nil => simp at h
  | cons e es ih =>
    obtain ⟨x, hx, hsev⟩ := h
    rcases List.mem_cons.mp hx with h1 | h2
    · rw [maxSev, ← h1, hsev]
      exact sevMax_major_left _
    · rw [maxSev, ih ⟨x, h2, hsev⟩]
      exact sevMax_major_right _

theorem bumped_eq_none (v : Version) (s : Severity) :
    bumped v s = Option.none ↔ s = Severity.none := by
  cases s <;> simp [bumped]

theorem finalBump_eq_none (stable : Bool) (raw : Severity) :
    finalBump stable raw = Severity.none ↔ raw = Severity.none := by
  cases stable <;> cases raw <;> simp [finalBump, downgradeUnstable]

theorem takeUntil_firstMatch (sha : String) (pre : List Commit) (c : Commit)
    (post : List Commit) (hpre : ∀ x ∈ pre, x.sha ≠ sha) (hc : c.sha = sha) :
    takeUntilSha sha (pre ++ c :: post) = pre := by
  induction pre with
  | nil => simp [takeUntilSha, hc]
  | cons a l ih =>
    have ha := hpre a (List.mem_cons_self a l)
    simp only [List.cons_append, takeUntilSha, if_neg ha, List.append_eq]
    rw [ih (fun x hx => hpre x (List.mem_cons_of_mem a hx))]

theorem takeUntil_append_noMem (sha : String) (l1 l2 : List Commit)
    (h : ∀ x ∈ l1, x.sha ≠ sha) :
    takeUntilSha sha (l1 ++ l2) = l1 ++ takeUntilSha sha l2 := by
  induction l1 with
  | nil => simp
  | cons a l ih =>
    have ha := h a (List.mem_cons_self a l)
    simp only [List.cons_append, takeUntilSha, if_neg ha, List.append_eq]
    rw [ih (fun x hx => h x (List.mem_cons_of_mem a hx))]

theorem entriesOf_append (l1 l2 : List Commit) :
    entriesOf (l1 ++ l2) = entriesOf l1 ++ entriesOf l2 := by
  induction l1 with
  | nil => simp [entriesOf]
  | cons c cs ih => simp [entriesOf, ih]

theorem step_blank_eq (sha : String) (st : PState) (l : List Char)
    (h : lineKind l = LineKind.blank) : step sha st l = st := by
  simp [step, h]

theorem step_dead_eq (sha : String) (st : PState) (l : List Char)
    (h : lineKind l = LineKind.dead) :
    step sha st l = { done := flushed st, cur := Option.none } := by
  simp [step, h]

theorem step_plain_open (sha : String) (st : PState) (l b : List Char) (e : Entry)
    (hk : lineKind l = LineKind.plain b) (hc : st.cur = some e) :
    step sha st l = { st with cur := some { e with
      lines := e.lines ++ [(processText b).1]
      issues := e.issues ++ (processText b).2 } } := by
  simp [step, hk, hc]

theorem step_plain_closed (sha : String) (st : PState) (l b : List Char)
    (hk : lineKind l = LineKind.plain b) (hc : st.cur = Option.none) :
    step sha st l = st := by
  simp [step, hk, hc]

theorem step_noop_closed (sha : String) (st : PState) (l : List Char)
    (hc : st.cur = Option.none)
    (hns : isStartKind (lineKind l) = false)
    (hnb : isBreakingKind (lineKind l) = false) :
    step sha st l = st := by
  obtain ⟨d, c⟩ := st
  simp only at hc
  subst hc
  cases hk : lineKind l with
  | blank => exact step_blank_eq _ _ _ hk
  | breaking b => rw [hk] at hnb; simp [isBreakingKind] at hnb
  | start sev sc b => rw [hk] at hns; simp [isStartKind] at hns
  | dead => rw [step_dead_eq _ _ _ hk]; simp [flushed]
  | plain b => exact step_plain_closed _ _ _ _ hk rfl

theorem foldl_step_noop (sha : String) (lines : List (List Char)) (st : PState)
    (hc : st.cur = Option.none)
    (h : ∀ l ∈ lines, isStartKind (lineKind l) = false ∧
      isBreakingKind (lineKind l) = false) :
    lines.foldl (step sha) st = st := by
  induction lines with
  | nil => rfl
  | cons l ls ih =>
    have h1 := h l (List.mem_cons_self l ls)
    rw [List.foldl_cons, step_noop_closed sha st l hc h1.1 h1.2]
    exact ih (fun x hx => h x (List.mem_cons_of_mem l hx))

theorem parseCommit_empty (c : Commit)
    (h : ∀ l ∈ splitOnCh '\n' c.message.data,
      isStartKind (lineKind l) = false ∧ isBreakingKind (lineKind l) = false) :
    parseCommit c = [] := by
  unfold parseCommit
  rw [foldl_step_noop c.sha _ _ rfl h]
  rfl

theorem entriesOf_empty (commits : List Commit)
    (h : ∀ c ∈ commits, ∀ l ∈ splitOnCh '\n' c.message.data,
      isStartKind (lineKind l) = false ∧ isBreakingKind (lineKind l) = false) :
    entriesOf commits = [] := by
  induction commits with
  | nil => rfl
  | cons c cs ih =>
    rw [entriesOf, parseCommit_empty c (h c (List.mem_cons_self c cs)), List.nil_append]
    exact ih (fun x hx => h x (List.mem_cons_of_mem c hx))

theorem mem_dedupAux (l : List String) :
    ∀ (seen : List String) (x : String), x ∈ dedupAux seen l ↔ (x ∈ l ∧ x ∉ seen) := by
  induction l with
  | nil => intro seen x; simp [dedupAux]
  | cons y l ih =>
    intro seen x
    by_cases hy : y ∈ seen
    · rw [dedupAux, if_pos hy, ih]
      constructor
      · rintro ⟨hl, hs⟩
        exact ⟨List.mem_cons_of_mem y hl, hs⟩
      · rintro ⟨hor, hs⟩
        rcases List.mem_cons.mp hor with he | hl
        · exact absurd (he ▸ hy) hs
        · exact ⟨hl, hs⟩
    · rw [dedupAux, if_neg hy]
      constructor
      · intro hmem
        rcases List.mem_cons.mp hmem with he | hl
        · exact ⟨he ▸ List.mem_cons_self y l, he ▸ hy⟩
        · obtain ⟨h1, h2⟩ := (ih (y :: seen) x).mp hl
          refine ⟨List.mem_cons_of_mem y h1, fun hs => h2 (List.mem_cons_of_mem y hs)⟩
      · rintro ⟨hor, hs⟩
        rcases List.mem_cons.mp hor with he | hl
        · exact he ▸ List.mem_cons_self y _
        · by_cases hxy : x = y
          · exact hxy ▸ List.mem_cons_self y _
          · refine List.mem_cons_of_mem y ((ih (y :: seen) x).mpr ⟨hl, fun hmem => ?_⟩)
            rcases List.mem_cons.mp hmem with h1 | h2
            · exact hxy h1
            · exact hs h2

theorem nodup_dedupAux (l : List String) : ∀ seen : List String, (dedupAux seen l).Nodup := by
  induction l with
  | nil => intro seen; simp [dedupAux]
  | cons y l ih =>
    intro seen
    by_cases hy : y ∈ seen
    · rw [dedupAux, if_pos hy]; exact ih seen
    · rw [dedupAux, if_neg hy]
      refine List.nodup_cons.mpr ⟨fun hmem => ?_, ih (y :: seen)⟩
      exact ((mem_dedupAux l (y :: seen) y).mp hmem).2 (List.mem_cons_self y seen)

/-! ## Model validation against the test-suite snapshots -/

/-- Replays the inline snapshot of the test named Just bumps correctly,
including the WIP-prefixed commit that is in fact recognized, the stripped
bracketed tag, the cutoff commit, and the minor-to-patch downgrade of the
bump on an unstable current version. -/
theorem modelCheck_just_bumps :
    getNextVersionAndReleaseNotes { owner := "user", repoName := "repository" }
      [{ name := "v0.0.9", commitSha := "123" }]
      (fun _ =>
        [{ message := "fix: fix serious issue\nfeat: add new feature", sha := "" },
         { message := "[publish] feat: just adding feature", sha := "" },
         { message := "WIP fix: first fixes", sha := "" },
         { message := "feat: should not be here", sha := "123" }]) "9.9.9" 5 =
    some
      { bumpType := Severity.patch
        nextVersion := some { major := 0, minor := 0, patch := 10 }
        commitsByRule :=
          { rawOverride := Option.none
            major := []
            minor := ["add new feature", "just adding feature"]
            patch := ["fix serious issue", "first fixes"] }
        usingInExistingEnv := false
        latestTagCommitSha := some "123" } := by
  decide

/-- Replays the inline snapshot of the test named BREAKING gives major on
unstable. -/
theorem modelCheck_breaking_unstable :
    resultFor { owner := "user", repoName := "repository" }
      { major := 0, minor := 0, patch := 7 }
      [{ message := "fix: fix serious issue\nfeat: add new feature\nBREAKING config was removed", sha := "" },
       { message := "feat: just adding feature\nBREAKING we broke anything", sha := "" },
       { message := "fix: first fixes", sha := "" }] false (some "123") =
    { bumpType := Severity.minor
      nextVersion := some { major := 0, minor := 1, patch := 0 }
      commitsByRule :=
        { rawOverride := Option.none
          major := ["add new feature\nconfig was removed", "just adding feature\nwe broke anything"]
          minor := []
          patch := ["fix serious issue", "first fixes"] }
      usingInExistingEnv := false
      latestTagCommitSha := some "123" } := by
  decide

/-- Replays the commit-link behaviour of the test named Extracts sha's
correctly: every entry of a commit with a non-empty identifier gets the
markdown commit link, except entries with issue references, which get the
issue annotation instead. -/
theorem modelCheck_commit_links :
    resultFor { owner := "user", repoName := "repository" }
      { major := 0, minor := 0, patch := 9 }
      [{ message := "fix: something fixed but we do not care", sha := "" },
       { message := "fix: fix serious issue\nfeat: add new feature\nBREAKING config was removed",
         sha := "7f8468286354936e8817607d7a2087715bbe1854" },
       { message := "fix: something was contributed (#123)",
         sha := "7f8468286354936e8817607d7a2087715bbe1854" }] false Option.none =
    { bumpType := Severity.minor
      nextVersion := some { major := 0, minor := 1, patch := 0 }
      commitsByRule :=
        { rawOverride := Option.none
          major := ["add new feature\nconfig was removed [`7f84682`](https://github.com/user/repository/commit/7f8468286354936e8817607d7a2087715bbe1854)"]
          minor := []
          patch := ["something fixed but we do not care",
            "fix serious issue [`7f84682`](https://github.com/user/repository/commit/7f8468286354936e8817607d7a2087715bbe1854)",
            "something was contributed (#123)"] }
      usingInExistingEnv := false
      latestTagCommitSha := Option.none } := by
  decide

/-- Replays the stable-version snapshot of the test named BREAKING gives
major: with a current version of 1.0.9 a breaking change bumps to 2.0.0. -/
theorem modelCheck_breaking_stable :
    (resultFor { owner := "user", repoName := "repository" }
      { major := 1, minor := 0, patch := 9 }
      [{ message := "fix: fix serious issue\nfeat: add new feature\nBREAKING config was removed", sha := "" }]
      false Option.none).nextVersion = some { major := 2, minor := 0, patch := 0 } := by
  decide

theorem getNext_tagless (repo : Repo) (tags : List Tag) (pages : Nat → List Commit)
    (pvs : String) (fuel : Nat)
    (hf : tags.find? (fun t => ("v".data).isPrefixOf t.name.data) = Option.none) :
    getNextVersionAndReleaseNotes repo tags pages pvs fuel =
      (parseVersion pvs).map fun pv =>
        { bumpType := Severity.none
          nextVersion := bumped pv Severity.patch
          commitsByRule :=
            { rawOverride := some "🎉 Initial release", major := [], minor := [], patch := [] }
          usingInExistingEnv := false
          latestTagCommitSha := Option.none } := by
  unfold getNextVersionAndReleaseNotes
  rw [hf]

theorem getNext_tagged (repo : Repo) (tags : List Tag) (pages : Nat → List Commit)
    (pvs : String) (fuel : Nat) (tag : Tag)
    (hf : tags.find? (fun t => ("v".data).isPrefixOf t.name.data) = some tag) :
    getNextVersionAndReleaseNotes repo tags pages pvs fuel =
      (parseVersion (String.mk (tag.name.data.drop 1))).map fun current =>
        resultFor repo current
          (takeUntilSha tag.commitSha (paginateFrom pages tag.commitSha fuel 1).1)
          (!(paginateFrom pages tag.commitSha fuel 1).2) (some tag.commitSha) := by
  unfold getNextVersionAndReleaseNotes
  rw [hf]

/-! ## Claim theorems -/

/-- C1: for every commit list that produced an entry with a BREAKING marker
(an entry of major severity), a stable current version (major at least 1)
yields bumpType major, an unstable one (major 0) yields bumpType minor, and
in both cases those entries are listed under the major key of
commitsByRule. -/
theorem claim_C1_breaking_escalation (repo : Repo) (current : Version)
    (relevant : List Commit) (u : Bool) (ts : Option String)
    (h : ∃ e ∈ entriesOf relevant, e.sev = Severity.major) :
    (1 ≤ current.major →
      (resultFor repo current relevant u ts).bumpType = Severity.major) ∧
    (current.major = 0 →
      (resultFor repo current relevant u ts).bumpType = Severity.minor) ∧
    (resultFor repo current relevant u ts).commitsByRule.major =
      ((entriesOf relevant).filter (fun e => decide (e.sev = Severity.major))).map
        (renderEntry repo) ∧
    (∀ e ∈ entriesOf relevant, e.sev = Severity.major →
      renderEntry repo e ∈ (resultFor repo current relevant u ts).commitsByRule.major) := by
  have hmax := maxSev_major _ h
  refine ⟨?_, ?_, rfl, ?_⟩
  · intro hs
    show finalBump (decide (1 ≤ current.major)) (maxSev (entriesOf relevant)) = Severity.major
    rw [hmax, decide_eq_true hs]
    rfl
  · intro hz
    show finalBump (decide (1 ≤ current.major)) (maxSev (entriesOf relevant)) = Severity.minor
    rw [hmax, hz]
    rfl
  · intro e he hsev
    show renderEntry repo e ∈
      ((entriesOf relevant).filter (fun e => decide (e.sev = Severity.major))).map
        (renderEntry repo)
    exact List.mem_map_of_mem _ (List.mem_filter.mpr ⟨he, by simp [hsev]⟩)

/-- Witness for C1 at the commits of the BREAKING tests: a major entry
exists, a stable 1.0.9 version gives bumpType major and the unstable 0.0.7
version gives bumpType minor. -/
theorem claim_C1_witness :
    (∃ e ∈ entriesOf c1Commits, e.sev = Severity.major) ∧
    (resultFor repoUR { major := 1, minor := 0, patch := 9 } c1Commits false
      Option.none).bumpType = Severity.major ∧
    (resultFor repoUR { major := 0, minor := 0, patch := 7 } c1Commits false
      Option.none).bumpType = Severity.minor :=
  ⟨by decide,
   (claim_C1_breaking_escalation repoUR { major := 1, minor := 0, patch := 9 } c1Commits false
      Option.none (by decide)).1 (by decide),
   (claim_C1_breaking_escalation repoUR { major := 0, minor := 0, patch := 7 } c1Commits false
      Option.none (by decide)).2.1 rfl⟩

/-- C2: nextVersion is computed from the current version by the final bump
type, and the increment follows the exact semver rules: patch increments the
patch component, minor increments minor and resets patch, major increments
major and resets both, and a major downgraded on an unstable version gives
the minor increment; in particular 0.0.9 + patch is 0.0.10, 1.0.9 + minor is
1.1.0, 1.0.9 + major is 2.0.0 and 0.0.7 + downgraded major is 0.1.0. -/
theorem claim_C2_semver_increment :
    (∀ (repo : Repo) (current : Version) (relevant : List Commit) (u : Bool)
        (ts : Option String),
      (resultFor repo current relevant u ts).nextVersion =
        bumped current (resultFor repo current relevant u ts).bumpType) ∧
    (∀ x y z : Nat, bumped { major := x, minor := y, patch := z } Severity.patch =
      some { major := x, minor := y, patch := z + 1 }) ∧
    (∀ x y z : Nat, bumped { major := x, minor := y, patch := z } Severity.minor =
      some { major := x, minor := y + 1, patch := 0 }) ∧
    (∀ x y z : Nat, bumped { major := x, minor := y, patch := z } Severity.major =
      some { major := x + 1, minor := 0, patch := 0 }) ∧
    (∀ y z : Nat, finalBump false Severity.major = Severity.minor ∧
      bumped { major := 0, minor := y, patch := z } (finalBump false Severity.major) =
        some { major := 0, minor := y + 1, patch := 0 }) ∧
    bumped { major := 0, minor := 0, patch := 9 } Severity.patch =
      some { major := 0, minor := 0, patch := 10 } ∧
    bumped { major := 1, minor := 0, patch := 9 } Severity.minor =
      some { major := 1, minor := 1, patch := 0 } ∧
    bumped { major := 1, minor := 0, patch := 9 } Severity.major =
      some { major := 2, minor := 0, patch := 0 } ∧
    bumped { major := 0, minor := 0, patch := 7 } (finalBump false Severity.major) =
      some { major := 0, minor := 1, patch := 0 } :=
  ⟨fun _ _ _ _ _ => rfl, fun _ _ _ => rfl, fun _ _ _ => rfl, fun _ _ _ => rfl,
   fun _ _ => ⟨rfl, rfl⟩, rfl, rfl, rfl, rfl⟩

/-- C3: the commit whose identifier equals the latest tag's commit
identifier, and everything after it in the (newest-first) list, contribute
nothing: the cutoff keeps exactly the commits before the first match and the
whole classification result of the cut list equals the result computed from
those commits alone. -/
theorem claim_C3_cutoff (repo : Repo) (current : Version) (u : Bool) (ts : Option String)
    (sha : String) (pre : List Commit) (c : Commit) (post : List Commit)
    (hpre : ∀ x ∈ pre, x.sha ≠ sha) (hc : c.sha = sha) :
    takeUntilSha sha (pre ++ c :: post) = pre ∧
    resultFor repo current (takeUntilSha sha (pre ++ c :: post)) u ts =
      resultFor repo current pre u ts := by
  have h := takeUntil_firstMatch sha pre c post hpre hc
  exact ⟨h, by rw [h]⟩

/-- Witness for C3 at the commits of the test named Doesn't pick commits
below version. -/
theorem claim_C3_witness :
    (∀ x ∈ c3Pre, x.sha ≠ "123") ∧ c3Cut.sha = "123" ∧
    takeUntilSha "123" (c3Pre ++ c3Cut :: c3Post) = c3Pre ∧
    resultFor repoUR { major := 1, minor := 0, patch := 9 }
        (takeUntilSha "123" (c3Pre ++ c3Cut :: c3Post)) false Option.none =
      resultFor repoUR { major := 1, minor := 0, patch := 9 } c3Pre false Option.none :=
  ⟨by decide, rfl,
   (claim_C3_cutoff repoUR { major := 1, minor := 0, patch := 9 } false Option.none "123"
      c3Pre c3Cut c3Post (by decide) rfl).1,
   (claim_C3_cutoff repoUR { major := 1, minor := 0, patch := 9 } false Option.none "123"
      c3Pre c3Cut c3Post (by decide) rfl).2⟩

/-- C4: with an empty tag list the initial-release path fires for any
fetched commits: severity classification is bypassed, bumpType is none,
commitsByRule is the rawOverride initial-release marker, and nextVersion is
the patch increment of the current package version. -/
theorem claim_C4_initial_release (repo : Repo) (pages : Nat → List Commit)
    (pvs : String) (pv : Version) (fuel : Nat) (h : parseVersion pvs = some pv) :
    getNextVersionAndReleaseNotes repo [] pages pvs fuel =
      some
        { bumpType := Severity.none
          nextVersion := some { major := pv.major, minor := pv.minor, patch := pv.patch + 1 }
          commitsByRule :=
            { rawOverride := some "🎉 Initial release", major := [], minor := [], patch := [] }
          usingInExistingEnv := false
          latestTagCommitSha := Option.none } := by
  rw [getNext_tagless repo [] pages pvs fuel rfl, h]
  rfl

/-- Witness for C4 at the input of the test named Initial release. -/
theorem claim_C4_witness :
    parseVersion "0.0.0" = some { major := 0, minor := 0, patch := 0 } ∧
    getNextVersionAndReleaseNotes repoUR []
        (fun _ => [{ message := "feat: something added", sha := "" }]) "0.0.0" 5 =
      some
        { bumpType := Severity.none
          nextVersion := some { major := 0, minor := 0, patch := 1 }
          commitsByRule :=
            { rawOverride := some "🎉 Initial release", major := [], minor := [], patch := [] }
          usingInExistingEnv := false
          latestTagCommitSha := Option.none } :=
  ⟨by decide,
   claim_C4_initial_release repoUR _ "0.0.0" { major := 0, minor := 0, patch := 0 } 5 (by decide)⟩

/-- C5: nextVersion is undefined exactly when bumpType is none and the
initial-release override did not fire (the rawOverride bucket is absent);
an override never coexists with ordinary buckets; and a commit list with no
feat, fix or BREAKING lines gives bumpType none, empty commitsByRule and no
nextVersion. -/
theorem claim_C5_invariant :
    (∀ (repo : Repo) (tags : List Tag) (pages : Nat → List Commit) (pvs : String)
        (fuel : Nat) (r : ClassificationResult),
      getNextVersionAndReleaseNotes repo tags pages pvs fuel = some r →
        ((r.nextVersion = Option.none ↔
            (r.bumpType = Severity.none ∧ r.commitsByRule.rawOverride = Option.none)) ∧
         (r.commitsByRule.rawOverride ≠ Option.none →
            r.commitsByRule.major = [] ∧ r.commitsByRule.minor = [] ∧
              r.commitsByRule.patch = []))) ∧
    (∀ (repo : Repo) (current : Version) (commits : List Commit) (u : Bool)
        (ts : Option String),
      (∀ c ∈ commits, ∀ l ∈ splitOnCh '\n' c.message.data,
        isStartKind (lineKind l) = false ∧ isBreakingKind (lineKind l) = false) →
      resultFor repo current commits u ts =
        { bumpType := Severity.none
          nextVersion := Option.none
          commitsByRule := { rawOverride := Option.none, major := [], minor := [], patch := [] }
          usingInExistingEnv := u
          latestTagCommitSha := ts }) := by
  constructor
  · intro repo tags pages pvs fuel r h
    cases hf : tags.find? (fun t => ("v".data).isPrefixOf t.name.data) with
    | none =>
      rw [getNext_tagless repo tags pages pvs fuel hf] at h
      cases hp : parseVersion pvs with
      | none => rw [hp] at h; exact Option.noConfusion h
      | some pv =>
        rw [hp] at h
        obtain rfl := Option.some.inj h
        constructor
        · simp [bumped]
        · intro _
          exact ⟨rfl, rfl, rfl⟩
    | some tag =>
      rw [getNext_tagged repo tags pages pvs fuel tag hf] at h
      cases hp : parseVersion (String.mk (tag.name.data.drop 1)) with
      | none => rw [hp] at h; exact Option.noConfusion h
      | some current =>
        rw [hp] at h
        obtain rfl := Option.some.inj h
        constructor
        · simp only [resultFor, bucketsOf]
          rw [bumped_eq_none]
          simp
        · intro hro
          exact absurd rfl hro
  · intro repo current commits u ts h
    have he : entriesOf commits = [] := entriesOf_empty commits h
    simp only [resultFor, he, bucketsOf, maxSev, List.filter_nil, List.map_nil]
    have hb : finalBump (decide (1 ≤ current.major)) Severity.none = Severity.none := by
      cases decide (1 ≤ current.major) <;> rfl
    rw [hb]
    rfl

/-- Witness for C5: the invariant instantiated at the input of the test
named No version bump, and the empty-classification conclusion at its commit
list. -/
theorem claim_C5_witness :
    (getNextVersionAndReleaseNotes repoUR [{ name := "v0.0.9", commitSha := "123" }]
        (fun _ => c5Commits) "9.9.9" 5 =
      some (resultFor repoUR { major := 0, minor := 0, patch := 9 }
        [{ message := "fix serious issue\nfeature something new", sha := "" }] false
        (some "123"))) ∧
    ((resultFor repoUR { major := 0, minor := 0, patch := 9 }
        [{ message := "fix serious issue\nfeature something new", sha := "" }] false
        (some "123")).nextVersion = Option.none ↔
      ((resultFor repoUR { major := 0, minor := 0, patch := 9 }
        [{ message := "fix serious issue\nfeature something new", sha := "" }] false
        (some "123")).bumpType = Severity.none ∧
       (resultFor repoUR { major := 0, minor := 0, patch := 9 }
        [{ message := "fix serious issue\nfeature something new", sha := "" }] false
        (some "123")).commitsByRule.rawOverride = Option.none)) ∧
    resultFor repoUR { major := 0, minor := 0, patch := 9 }
        [{ message := "fix serious issue\nfeature something new", sha := "" }] false
        (some "123") =
      { bumpType := Severity.none
        nextVersion := Option.none
        commitsByRule := { rawOverride := Option.none, major := [], minor := [], patch := [] }
        usingInExistingEnv := false
        latestTagCommitSha := some "123" } :=
  ⟨by decide,
   (claim_C5_invariant.1 repoUR [{ name := "v0.0.9", commitSha := "123" }]
      (fun _ => c5Commits) "9.9.9" 5 _ (by decide)).1,
   claim_C5_invariant.2 repoUR { major := 0, minor := 0, patch := 9 }
      [{ message := "fix serious issue\nfeature something new", sha := "" }] false
      (some "123") (by decide)⟩

/-- C6 counterexample: the blank line of the message fix: a, blank, b is a
line that is neither an entry start nor a BREAKING marker while an entry is
open, yet it is skipped rather than appended (the parsed description is a, b
and not a, blank, b); and the line WIP fix: first fixes, which the claim
lists as discarded, is in fact recognized as a patch entry. -/
theorem claim_C6_counterexample :
    parseCommit { message := "fix: a\n\nb", sha := "" } =
      [{ sev := Severity.patch
         scope := Option.none
         lines := ["a", "b"]
         issues := []
         sha := "" }] ∧
    (["a", "b"] : List String) ≠ ["a", "", "b"] ∧
    parseCommit { message := "WIP fix: first fixes", sha := "" } =
      [{ sev := Severity.patch
         scope := Option.none
         lines := ["first fixes"]
         issues := []
         sha := "" }] := by
  decide

/-- C6 (amended): every non-blank line that matches no typed-line pattern
and is not a BREAKING marker is appended (after issue-reference extraction)
to the open entry's description as a continuation line; blank lines are
always skipped, even with an entry open; and with no open entry such a line
is discarded. -/
theorem claim_C6_continuation (sha : String) (st : PState) (l b : List Char) :
    (∀ e : Entry, lineKind l = LineKind.plain b → st.cur = some e →
      step sha st l = { st with cur := some { e with
        lines := e.lines ++ [(processText b).1]
        issues := e.issues ++ (processText b).2 } }) ∧
    (lineKind l = LineKind.blank → step sha st l = st) ∧
    (lineKind l = LineKind.plain b → st.cur = Option.none → step sha st l = st) :=
  ⟨fun e hk hc => step_plain_open sha st l b e hk hc,
   fun hk => step_blank_eq sha st l hk,
   fun hk hc => step_plain_closed sha st l b hk hc⟩

/-- Witness for the amended C6: the continuation line b is appended to the
open entry, and a blank line leaves the state unchanged. -/
theorem claim_C6_witness :
    step "" { done := [], cur := some c6OpenEntry } ("b".data) =
      { done := [], cur := some { c6OpenEntry with lines := ["a", "b"] } } ∧
    step "" { done := [], cur := some c6OpenEntry } [] =
      { done := [], cur := some c6OpenEntry } :=
  ⟨(claim_C6_continuation "" { done := [], cur := some c6OpenEntry }
      ("b".data) ("b".data)).1 c6OpenEntry (by decide) rfl,
   (claim_C6_continuation "" { done := [], cur := some c6OpenEntry } [] []).2.1
      (by decide)⟩

/-- C7: an entry with issue references renders with exactly one trailing
annotation holding the deduplicated references; deduplication keeps exactly
the referenced issues, without duplicates; and on the commits of the test
named Operates on description properly the inline references are removed
from the visible text and merged, deduplicated, into the single trailing
annotation. -/
theorem claim_C7_issue_refs :
    (∀ (repo : Repo) (sev : Severity) (sc : Option String) (lines : List String)
        (i : String) (is : List String) (sha : String),
      renderEntry repo { sev := sev, scope := sc, lines := lines, issues := i :: is, sha := sha } =
        ((match sc with
          | some s => "**" ++ s ++ "**: "
          | Option.none => "") ++ joinNl lines) ++ " (" ++
          joinComma ((dedupFirst (i :: is)).map (fun r => "#" ++ r)) ++ ")") ∧
    (∀ (refs : List String) (x : String), x ∈ dedupFirst refs ↔ x ∈ refs) ∧
    (∀ refs : List String, (dedupFirst refs).Nodup) ∧
    (resultFor repoUR { major := 1, minor := 0, patch := 9 } c7Commits false
        Option.none).commitsByRule =
      { rawOverride := Option.none
        major := []
        minor := ["Add new feature within commit\nDescription"]
        patch := ["This rare bug was finally fixed\nSome background for bug goes here... (#33343)",
          "This rare bug was finally fixed\n\nSome background for bug goes here... (#33343, #453)",
          "first fixes"] } ∧
    parseCommit { message := "fix: Fixed bug closes #7\nAgain (#7)", sha := "" } =
      [c7DedupEntry] ∧
    renderEntry repoUR c7DedupEntry = "Fixed bug\nAgain (#7)" := by
  refine ⟨?_, ?_, fun refs => nodup_dedupAux refs [], by decide, by decide, by decide⟩
  · intro repo sev sc lines i is sha
    have hne : dedupFirst (i :: is) = i :: dedupAux [i] is := by
      simp [dedupFirst, dedupAux]
    simp [renderEntry, hne]
  · intro refs x
    simpa using mem_dedupAux refs [] x

/-- C8: when the first page is full (100 commits) without the cutoff commit
and the second page either contains the cutoff or is short, pagination stops
after the second page having kept every fetched commit, and every commit
before the cutoff across both pages is classified: the severity buckets
count exactly the matching entries of page one plus the pre-cutoff part of
page two, with no truncation at the page boundary. -/
theorem claim_C8_pagination (repo : Repo) (current : Version)
    (pages : Nat → List Commit) (sha : String) (fuel : Nat) (u : Bool)
    (ts : Option String)
    (h1 : (pages 1).length = 100)
    (h2 : ∀ c ∈ pages 1, c.sha ≠ sha)
    (h3 : (pages 2).any (fun c => decide (c.sha = sha)) = true ∨ (pages 2).length < 100)
    (hfuel : 2 ≤ fuel) :
    paginateFrom pages sha fuel 1 =
      (pages 1 ++ pages 2, (pages 2).any (fun c => decide (c.sha = sha))) ∧
    takeUntilSha sha (pages 1 ++ pages 2) = pages 1 ++ takeUntilSha sha (pages 2) ∧
    entriesOf (takeUntilSha sha (pages 1 ++ pages 2)) =
      entriesOf (pages 1) ++ entriesOf (takeUntilSha sha (pages 2)) ∧
    (resultFor repo current (takeUntilSha sha (pages 1 ++ pages 2)) u
        ts).commitsByRule.patch.length =
      ((entriesOf (pages 1) ++ entriesOf (takeUntilSha sha (pages 2))).filter
        (fun e => decide (e.sev = Severity.patch))).length ∧
    (resultFor repo current (takeUntilSha sha (pages 1 ++ pages 2)) u
        ts).commitsByRule.minor.length =
      ((entriesOf (pages 1) ++ entriesOf (takeUntilSha sha (pages 2))).filter
        (fun e => decide (e.sev = Severity.minor))).length := by
  have ha1 : (pages 1).any (fun c => decide (c.sha = sha)) = false := by
    rw [List.any_eq_false]
    intro c hc
    simp [h2 c hc]
  have hcut : takeUntilSha sha (pages 1 ++ pages 2) =
      pages 1 ++ takeUntilSha sha (pages 2) :=
    takeUntil_append_noMem sha _ _ h2
  have hent : entriesOf (takeUntilSha sha (pages 1 ++ pages 2)) =
      entriesOf (pages 1) ++ entriesOf (takeUntilSha sha (pages 2)) := by
    rw [hcut, entriesOf_append]
  refine ⟨?_, hcut, hent, ?_, ?_⟩
  · obtain ⟨k, rfl⟩ : ∃ k, fuel = k + 1 + 1 := ⟨fuel - 2, by omega⟩
    rw [paginateFrom]
    simp only [ha1, Bool.false_eq_true, if_false, h1]
    rw [if_neg (by omega)]
    cases hany : (pages 2).any (fun c => decide (c.sha = sha)) with
    | true => rw [paginateFrom]; simp [hany]
    | false =>
      have hlen : (pages 2).length < 100 := by
        rcases h3 with h3 | h3
        · rw [hany] at h3; exact absurd h3 (by simp)
        · exact h3
      rw [paginateFrom]
      simp [hany, hlen]
  · simp only [resultFor, bucketsOf, List.length_map]
    rw [hent]
  · simp only [resultFor, bucketsOf, List.length_map]
    rw [hent]

/-- Witness for C8 at the two-page history of the pagination test: both
pages are kept, and all 100 fix entries and 100 feat entries are classified
(100 patch and 100 minor rendered entries). -/
theorem claim_C8_witness :
    (c8Pages 1).length = 100 ∧
    (∀ c ∈ c8Pages 1, c.sha ≠ "123") ∧
    (c8Pages 2).any (fun c => decide (c.sha = "123")) = true ∧
    paginateFrom c8Pages "123" 5 1 = (c8Pages 1 ++ c8Pages 2, true) ∧
    (resultFor repoUR { major := 0, minor := 0, patch := 1 }
        (takeUntilSha "123" (c8Pages 1 ++ c8Pages 2)) false
        Option.none).commitsByRule.patch.length = 100 ∧
    (resultFor repoUR { major := 0, minor := 0, patch := 1 }
        (takeUntilSha "123" (c8Pages 1 ++ c8Pages 2)) false
        Option.none).commitsByRule.minor.length = 100 := by
  have h := claim_C8_pagination repoUR { major := 0, minor := 0, patch := 1 } c8Pages "123" 5
    false Option.none (by decide) (by decide) (Or.inl (by decide)) (by omega)
  refine ⟨by decide, by decide, by decide, ?_, ?_, ?_⟩
  · exact h.1.trans (by rw [show (c8Pages 2).any (fun c => decide (c.sha = "123")) = true
      from by decide])
  · exact h.2.2.2.1.trans (by decide)
  · exact h.2.2.2.2.trans (by decide)

/-- C9: the renderer emits the sections in the fixed order breaking changes,
then features, then fixes, exactly as the ordered-and-filtered section list
describes: absent buckets produce no heading, entries appear as markdown
list items in classification order with line breaks preserved; a rawOverride
bucket is emitted verbatim; and on the changelog-generator test input the
output is the snapshot string. -/
theorem claim_C9_render_order :
    (∀ cbr : CommitsByRule, cbr.rawOverride = Option.none →
      generateChangelog cbr = changelogByOrder cbr) ∧
    (∀ (cbr : CommitsByRule) (s : String), cbr.rawOverride = some s →
      generateChangelog cbr = s) ∧
    generateChangelog (resultFor repoUR { major := 0, minor := 0, patch := 9 } c9Commits
        false Option.none).commitsByRule =
      "## BREAKING CHANGES\n\n- add new feature\nconfig was removed\n- **button**: just adding feature\nwe broke anything\n### New Features\n\n- new feature!\n### Bug Fixes\n\n- fix serious issue\n- **library-action**: first fixes" := by
  refine ⟨?_, ?_, by decide⟩
  · intro cbr h
    obtain ⟨ro, ma, mi, pa⟩ := cbr
    obtain rfl : ro = Option.none := h
    simp only [generateChangelog, changelogByOrder, orderedSections]
    by_cases hma : ma.isEmpty <;> by_cases hmi : mi.isEmpty <;> by_cases hpa : pa.isEmpty <;>
      simp [hma, hmi, hpa, List.filter]
  · intro cbr s h
    obtain ⟨ro, ma, mi, pa⟩ := cbr
    obtain rfl : ro = some s := h
    rfl

/-- Witness for C9: the renderer applied to sample buckets without an
override agrees with the ordered-and-filtered rendering. -/
theorem claim_C9_witness :
    c9SampleCbr.rawOverride = Option.none ∧
    generateChangelog c9SampleCbr = changelogByOrder c9SampleCbr :=
  ⟨rfl, claim_C9_render_order.1 c9SampleCbr rfl⟩

/-- C10: a typed line whose type word is not a recognized severity type
(such as Note: or test:) closes the open entry as it stands and starts a
discarded block, so the line and its continuation lines are excluded from
the entry's description; on the commit of the test named Operates on
description properly the test: line and its continuation are cut off. -/
theorem claim_C10_dead_block (sha : String) (st : PState) (l : List Char) :
    (lineKind l = LineKind.dead →
      step sha st l = { done := flushed st, cur := Option.none }) ∧
    (∀ b, lineKind l = LineKind.plain b → st.cur = Option.none → step sha st l = st) ∧
    lineKind ("Note: yes, we are!".data) = LineKind.dead ∧
    lineKind ("test: Fix tests".data) = LineKind.dead ∧
    parseCommit { message := "\nfix: This rare bug was finally fixed fixes #33343\n\nfixes #453\nSome background for bug goes here...\ntest: Fix tests\nTests were hard to fix", sha := "" } =
      [{ sev := Severity.patch
         scope := Option.none
         lines := ["This rare bug was finally fixed", "", "Some background for bug goes here..."]
         issues := ["33343", "453"]
         sha := "" }] :=
  ⟨fun hk => step_dead_eq sha st l hk,
   fun b hk hc => step_plain_closed sha st l b hk hc,
   by decide, by decide, by decide⟩

/-- Witness for C10: the unrecognized-type line Note: b flushes the open
entry unchanged and the parser enters the discarded state. -/
theorem claim_C10_witness :
    step "" { done := [], cur := some c6OpenEntry } ("Note: b".data) =
      { done := [c6OpenEntry], cur := Option.none } :=
  (claim_C10_dead_block "" { done := [], cur := some c6OpenEntry } ("Note: b".data)).1
    (by decide)
